import Mathlib

/-!
Verification of the duplicate-safe bulk-insert and batch-chunked-read
subsystem of the nesta data pipelines.

Shallow embedding of:
* `nesta/core/orms/orm_utils.py`: `cast_as_sql_python_type`,
  `_filter_out_duplicates`, `insert_data`, `db_session_query`, `exists`;
* `nesta/production/orms/orm_utils.py`: `filter_out_duplicates`;
* `nesta/packages/crunchbase/crunchbase_collect.py`: `total_records`,
  `split_batches`, `_insert_data`;
* `nesta/packages/vectors/read.py`: `query_and_bundle`, `read_data`.

Modelling conventions:
* SQL/python values are `Value` (integers and strings: the only primitive
  types the claims exercise); a candidate row (python dict) is an
  association list from field names to values; dict lookup takes the first
  matching key.
* A SqlAlchemy column is a `Column` (name, type with optional VARCHAR
  length, autoincrement flag); an ORM class is an `Entity` carrying its
  declared primary-key columns.
* The relational store is the list of primary-key tuples currently stored
  in the target table.  Committing an entity stores its key values coerced
  to the declared column types (MySQL non-strict truncation, which is
  exactly the behaviour `cast_as_sql_python_type` mirrors client-side).
* Python exceptions are `Except` errors; fallible steps return `Except`.
* `_class(**row)` instantiation is modelled as the row itself (the ORM
  instance carries the same field values).
-/

inductive Value where
  | intV : Int → Value
  | strV : String → Value
deriving DecidableEq, Repr

/-- A candidate row: a python dict from field name to value. -/
abbrev Row := List (String × Value)

/-- Python dict lookup (`row[k]` / `k in row`): first matching key. -/
def Row.find : Row → String → Option Value
  | [], _ => none
  | (k', v) :: rest, k => if k' = k then some v else Row.find rest k

/-- The declared SQL type of a column: INTEGER, or a string type with an
optional maximum length (`VARCHAR(n)` has `some n`; `TEXT` has `none`). -/
inductive ColType where
  | intCol : ColType
  | strCol : Option Nat → ColType
deriving DecidableEq, Repr

/-- A SqlAlchemy column as seen by the duplicate filter. -/
structure Column where
  name : String
  ctype : ColType
  autoincrement : Bool
deriving DecidableEq, Repr

/-- An ORM class (`_class`): just its primary-key columns, which is all the
duplicate filter consults. -/
structure Entity where
  pkeyCols : List Column
deriving DecidableEq, Repr

/-- A primary-key tuple. -/
abbrev PK := List Value

/-- The relational store: the primary-key tuples of the rows currently in
the target table. -/
structure Store where
  pks : List PK
deriving DecidableEq, Repr

/-- Python exceptions raised during key extraction. -/
inductive CastError where
  | typeError : CastError   -- `None < len(_data)` on a length-less string column
  | valueError : CastError  -- e.g. `int("x")`
  | keyError : CastError    -- `row[name]` with the key absent (guarded in practice)
deriving DecidableEq, Repr

/-- Equality of modelled python call results is decidable, so concrete
runs can be checked by evaluation. -/
instance exceptDecEq {ε α : Type} [DecidableEq ε] [DecidableEq α] :
    DecidableEq (Except ε α) := fun x y =>
  match x, y with
  | .ok a, .ok b =>
      if h : a = b then .isTrue (by rw [h])
      else .isFalse (fun hc => h (by injection hc))
  | .error a, .error b =>
      if h : a = b then .isTrue (by rw [h])
      else .isFalse (fun hc => h (by injection hc))
  | .ok _, .error _ => .isFalse (fun hc => Except.noConfusion hc)
  | .error _, .ok _ => .isFalse (fun hc => Except.noConfusion hc)

/-- Bridging instance: equality of right-nested product triples (the
filter's result shape) is decidable. -/
instance tripleDecEq {α β γ : Type} [DecidableEq α] [DecidableEq β] [DecidableEq γ] :
    DecidableEq (α × β × γ) := instDecidableEqProd

/-- Bridging instance: equality of right-nested product quadruples (the
bulk writer's result shape) is decidable. -/
instance quadDecEq {α β γ δ : Type} [DecidableEq α] [DecidableEq β] [DecidableEq γ]
    [DecidableEq δ] : DecidableEq (α × β × γ × δ) := instDecidableEqProd

/-- `field.type.python_type(data)`: coerce a value to the python type
declared for the column. -/
def pythonTypeCast : ColType → Value → Except CastError Value
  | .intCol, .intV n => .ok (.intV n)
  | .intCol, .strV s =>
      match s.toInt? with
      | some n => .ok (.intV n)
      | none => .error .valueError
  | .strCol _, .intV n => .ok (.strV (toString n))
  | .strCol _, .strV s => .ok (.strV s)

/-- `cast_as_sql_python_type` (core orm_utils): coerce to the declared
python type, then for string columns truncate to the declared length.
`n = field.type.length if field.type.length < len(_data) else None` raises
`TypeError` when the length is `None` (python cannot order `None < int`). -/
def cast_as_sql_python_type (field : Column) (data : Value) : Except CastError Value :=
  match pythonTypeCast field.ctype data with
  | .error er => .error er
  | .ok d =>
      match field.ctype, d with
      | .strCol none, _ => .error .typeError
      | .strCol (some L), .strV s => .ok (.strV (if L < s.length then s.take L else s))
      | _, d => .ok d

/-- `is_auto_pkey`: every primary-key column is an auto-incrementing
integer column. -/
def is_auto_pkey (e : Entity) : Bool :=
  e.pkeyCols.all fun p => p.autoincrement && p.ctype == ColType.intCol

/-- `tuple([cast_as_sql_python_type(pkey, row[pkey.name]) for pkey in pkey_cols])`:
the row's primary-key tuple, coerced column by column (first failure wins,
as in the python comprehension). -/
def computePk (cols : List Column) (row : Row) : Except CastError PK :=
  match cols with
  | [] => .ok []
  | c :: rest =>
      match Row.find row c.name with
      | none => .error .keyError
      | some v =>
          match cast_as_sql_python_type c v, computePk rest row with
          | .ok d, .ok pks => .ok (d :: pks)
          | .error er, _ => .error er
          | .ok _, .error er => .error er

/-- One stored key tuple satisfies the `exists` statement built from a row:
`and_(getattr(_class, pkey.name) == kwargs[pkey.name] for pkey in pkey_cols)`.
The comparison uses the *raw* row values, not the coerced ones. -/
def pkMatches (cols : List Column) (pk : PK) (row : Row) : Bool :=
  match cols, pk with
  | [], [] => true
  | c :: cs, v :: vs => (Row.find row c.name == some v) && pkMatches cs vs row
  | _, _ => false

/-- `session.query(exists(_class, **row)).scalar()`: does any stored row
match the candidate row on all primary-key columns? -/
def existsQuery (st : Store) (cols : List Column) (row : Row) : Bool :=
  st.pks.any fun pk => pkMatches cols pk row

/-- The mutable state of `_filter_out_duplicates`' loop. -/
structure FilterState where
  all_pks : List PK
  objs : List Row
  existing_objs : List Row
  failed_objs : List Row
deriving DecidableEq, Repr

/-- One iteration of the `for irow, row in enumerate(data)` loop of
`_filter_out_duplicates` (core orm_utils). -/
def processRow (st : Store) (e : Entity) (low_memory : Bool)
    (s : FilterState) (row : Row) : Except CastError FilterState :=
  if !is_auto_pkey e && !(e.pkeyCols.all fun c => (Row.find row c.name).isSome) then
    .ok { s with failed_objs := s.failed_objs ++ [row] }
  else if is_auto_pkey e then
    -- key extraction, the seen-set and the existence check are all guarded
    -- by `not is_auto_pkey`, so the row goes straight to `objs`
    .ok { s with objs := s.objs ++ [row] }
  else
    match computePk e.pkeyCols row with
    | .error er => .error er
    | .ok pk =>
        if pk ∈ s.all_pks then
          .ok { s with existing_objs := s.existing_objs ++ [row] }
        else
          let s' := { s with all_pks := s.all_pks ++ [pk] }
          if !low_memory && existsQuery st e.pkeyCols row then
            .ok { s' with existing_objs := s'.existing_objs ++ [row] }
          else
            .ok { s' with objs := s'.objs ++ [row] }

/-- The whole row loop of `_filter_out_duplicates`. -/
def filterLoop (st : Store) (e : Entity) (low_memory : Bool) :
    List Row → FilterState → Except CastError FilterState
  | [], s => .ok s
  | row :: rest, s =>
      match processRow st e low_memory s row with
      | .error er => .error er
      | .ok s' => filterLoop st e low_memory rest s'

/-- The initial loop state of `_filter_out_duplicates`: in low-memory mode
(and the key not auto-increment) the seen-set is seeded with every
primary-key tuple already in the store. -/
def filterInit (st : Store) (e : Entity) (low_memory : Bool) : FilterState :=
  { all_pks := if low_memory && !is_auto_pkey e then st.pks else []
    objs := []
    existing_objs := []
    failed_objs := [] }

/-- `_filter_out_duplicates(session, Base, _class, data, low_memory)`:
classify candidate rows into `(objs, existing_objs, failed_objs)`. -/
def _filter_out_duplicates (st : Store) (e : Entity) (data : List Row)
    (low_memory : Bool) : Except CastError (List Row × List Row × List Row) :=
  match filterLoop st e low_memory data (filterInit st e low_memory) with
  | .error er => .error er
  | .ok s => .ok (s.objs, s.existing_objs, s.failed_objs)

/-- `insert_data(..., return_non_inserted=True)`: filter, then
`bulk_save_objects` + `commit`.  The commit stores the coerced key values
of the inserted rows (auto-increment keys are assigned by the store and
not tracked).  Returns the three lists and the resulting store. -/
def insert_data (st : Store) (e : Entity) (data : List Row) (low_memory : Bool) :
    Except CastError (List Row × List Row × List Row × Store) :=
  match _filter_out_duplicates st e data low_memory with
  | .error er => .error er
  | .ok (objs, existing_objs, failed_objs) =>
      let newPks :=
        if is_auto_pkey e then []
        else objs.filterMap fun r => (computePk e.pkeyCols r).toOption
      .ok (objs, existing_objs, failed_objs, ⟨st.pks ++ newPks⟩)

/-! ### The production variant (`nesta/production/orms/orm_utils.py`)

`filter_out_duplicates` there has no auto-increment bypass and coerces key
values only by `str(...)` when the column's python type is `str` (a
work-around for pandas guessing ints for string columns). -/

/-- Python `str(value)`. -/
def pyStr : Value → Value
  | .intV n => .strV (toString n)
  | .strV s => .strV s

/-- Is the column's declared python type `str`? -/
def isStrType : ColType → Bool
  | .strCol _ => true
  | .intCol => false

/-- `tuple([row[pkey.name] if pkey.type.python_type is not str else
str(row[pkey.name]) for pkey in pkey_cols])` (production variant). -/
def production_pk (cols : List Column) (row : Row) : Except CastError PK :=
  match cols with
  | [] => .ok []
  | c :: rest =>
      match Row.find row c.name with
      | none => .error .keyError
      | some v =>
          match production_pk rest row with
          | .ok pks => .ok ((if isStrType c.ctype then pyStr v else v) :: pks)
          | .error er => .error er

/-- One loop iteration of the production `filter_out_duplicates`. -/
def production_processRow (st : Store) (e : Entity) (low_memory : Bool)
    (s : FilterState) (row : Row) : Except CastError FilterState :=
  if !(e.pkeyCols.all fun c => (Row.find row c.name).isSome) then
    .ok { s with failed_objs := s.failed_objs ++ [row] }
  else
    match production_pk e.pkeyCols row with
    | .error er => .error er
    | .ok pk =>
        if pk ∈ s.all_pks then
          .ok { s with existing_objs := s.existing_objs ++ [row] }
        else
          let s' := { s with all_pks := s.all_pks ++ [pk] }
          if !low_memory && existsQuery st e.pkeyCols row then
            .ok { s' with existing_objs := s'.existing_objs ++ [row] }
          else
            .ok { s' with objs := s'.objs ++ [row] }

/-- The row loop of the production `filter_out_duplicates`. -/
def production_filterLoop (st : Store) (e : Entity) (low_memory : Bool) :
    List Row → FilterState → Except CastError FilterState
  | [], s => .ok s
  | row :: rest, s =>
      match production_processRow st e low_memory s row with
      | .error er => .error er
      | .ok s' => production_filterLoop st e low_memory rest s'

/-- The initial loop state of the production `filter_out_duplicates`
(no auto-increment bypass on the seeding either). -/
def productionInit (st : Store) (low_memory : Bool) : FilterState :=
  { all_pks := if low_memory then st.pks else []
    objs := []
    existing_objs := []
    failed_objs := [] }

/-- `filter_out_duplicates` (production variant). -/
def production_filter_out_duplicates (st : Store) (e : Entity) (data : List Row)
    (low_memory : Bool) : Except CastError (List Row × List Row × List Row) :=
  match production_filterLoop st e low_memory data (productionInit st low_memory) with
  | .error er => .error er
  | .ok s => .ok (s.objs, s.existing_objs, s.failed_objs)

/-! ### The chunked bulk writer (`crunchbase_collect.py`) -/

/-- Lookup in a python dict of counters, modelled as an association list
(keys are distinct at every call site; absence would raise `KeyError` in
python and never occurs here, so we default to 0). -/
def SDict.get (d : List (String × Nat)) (k : String) : Nat :=
  match d with
  | [] => 0
  | (k', n) :: rest => if k' = k then n else SDict.get rest k

/-- `total_records(data_dict, append_to)`: per-key counts, a `total`, an
optional merge with previous totals, and a `batch_total` holding this
call's (un-merged) total. -/
def total_records (data_dict : List (String × List Row))
    (append_to : Option (List (String × Nat))) : List (String × Nat) :=
  let totals := data_dict.map fun p => (p.1, p.2.length)
  let total := (data_dict.map fun p => p.2.length).sum
  let totals := totals ++ [("total", total)]
  let totals :=
    match append_to with
    | none => totals
    | some prev => totals.map fun p => (p.1, p.2 + SDict.get prev p.1)
  totals ++ [("batch_total", total)]

/-- The accumulating loop of `split_batches`: collect rows into a batch,
emit it when it reaches `batch_size`, emit the leftover if non-empty. -/
def splitLoop (batch_size : Nat) : List Row → List Row → List (List Row)
  | [], batch => if batch.length > 0 then [batch] else []
  | r :: rest, batch =>
      let batch' := batch ++ [r]
      if batch'.length = batch_size then batch' :: splitLoop batch_size rest []
      else splitLoop batch_size rest batch'

/-- `split_batches(data, batch_size)`: a list of at most `batch_size` rows
per batch (when the data fits in one batch it is yielded whole, even if
empty). -/
def split_batches (data : List Row) (batch_size : Nat) : List (List Row) :=
  if data.length ≤ batch_size then [data]
  else splitLoop batch_size data []

/-- The message of the `ValueError` raised by `_insert_data` on a count
mismatch (`f"Inserted {table} data is not equal to original: {n}"`; the
`{table}` interpolation prints the ORM class, which names the table). -/
def reconcileMsg (tableName : String) (n : Nat) : String :=
  "Inserted " ++ tableName ++ " data is not equal to original: " ++ toString n

/-- The batch loop of `_insert_data`, parametrised by the per-batch insert
outcome `ins` (what `insert_data(..., return_non_inserted=True)` returns,
so that store behaviour — including hypothetical silent row loss — can be
modelled).  Stops with the `ValueError` as soon as a batch fails the
`batch_total == len(batch)` reconciliation check. -/
def insertLoop (tableName : String)
    (ins : List Row → List Row × List Row × List Row) :
    List (List Row) → Option (List (String × Nat)) →
    Except String (Option (List (String × Nat)))
  | [], totals => .ok totals
  | batch :: rest, totals =>
      let r := ins batch
      let returned := [("inserted", r.1), ("existing", r.2.1), ("failed", r.2.2)]
      let totals' := total_records returned totals
      if SDict.get totals' "batch_total" ≠ batch.length then
        .error (reconcileMsg tableName batch.length)
      else insertLoop tableName ins rest (some totals')

/-- The end-of-run check of `_insert_data`:
`if totals['total'] != total_rows_in: raise ValueError(...)`.  (`totals`
can only be `None` if no batch was yielded, which `split_batches` never
does; python would then raise a `TypeError`.) -/
def finalCheck (tableName : String) (total_rows_in : Nat) :
    Option (List (String × Nat)) → Except String (List (String × Nat))
  | none => .error "TypeError: NoneType is not subscriptable"
  | some totals =>
      if SDict.get totals "total" ≠ total_rows_in then
        .error (reconcileMsg tableName total_rows_in)
      else .ok totals

/-- `_insert_data(config, section, database, base, table, data, batch_size)`
with the per-batch insertion abstracted as `ins`. -/
def _insert_data (tableName : String)
    (ins : List Row → List Row × List Row × List Row)
    (data : List Row) (batch_size : Nat) : Except String (List (String × Nat)) :=
  match insertLoop tableName ins (split_batches data batch_size) none with
  | .error er => .error er
  | .ok totals => finalCheck tableName data.length totals

/-! ### The chunked reader (`db_session_query`, core orm_utils)

The query's full result sequence is modelled as a list of rows;
`db.query(query).offset(o).limit(c)` is `(rows.drop o).take c`.  The
generator's overall yield sequence is returned as a list. -/

/-- The `for row in ...` body of one chunk: yield each row, incrementing
`n_results`, and return from the whole generator as soon as
`n*chunksize + n_results == limit` (an equality test; `t` is the running
total `n*chunksize + n_results` before the current row).  Returns the rows
yielded from this chunk, the final `n_results`, and whether the early
`return` fired. -/
def yieldChunk (limit : Option Nat) : Nat → List Row → List Row × Nat × Bool
  | _, [] => ([], 0, false)
  | t, r :: rs =>
      if limit = some (t + 1) then ([r], 1, true)
      else
        let res := yieldChunk limit (t + 1) rs
        (r :: res.1, res.2.1 + 1, res.2.2)

/-- The `while n_results == chunksize` loop of `db_session_query`.  `fuel`
bounds the number of iterations; `db_session_query` supplies enough fuel
for every terminating run (`chunksize ≥ 1`).  With `chunksize = 0` the
python loop never terminates; here the fuel simply runs out. -/
def dsqLoop (rows : List Row) (chunksize : Nat) (limit : Option Nat) (offset : Nat) :
    Nat → Nat → List Row → List Row
  | 0, _, acc => acc
  | fuel + 1, n, acc =>
      let chunk := (rows.drop (offset + n * chunksize)).take chunksize
      let res := yieldChunk limit (n * chunksize) chunk
      if res.2.2 then acc ++ res.1
      else if res.2.1 = chunksize then
        dsqLoop rows chunksize limit offset fuel (n + 1) (acc ++ res.1)
      else acc ++ res.1

/-- `db_session_query(query, engine, chunksize, limit, offset)`: the full
sequence of rows the generator yields. -/
def db_session_query (rows : List Row) (chunksize : Nat) (limit : Option Nat)
    (offset : Nat) : List Row :=
  dsqLoop rows chunksize limit offset (rows.length + 1) 0 []

/-! ### The key-based resumable reader (`nesta/packages/vectors/read.py`)

A source row is an id string paired with its vector, whose numeric payload
is irrelevant to the claims and is modelled as an `Int` tag. -/

/-- A `(id, vector)` row of the vectors table. -/
abbrev VRow := String × Int

/-- `q.offset(offset) if filter_ is None else q.filter(filter_)`: the
filter (`id_field > x`) or the offset applied to the query. -/
def queryFiltered (rows : List VRow) (offset : Nat) (filter_ : Option String) :
    List VRow :=
  match filter_ with
  | none => rows.drop offset
  | some x => rows.filter fun r => decide (x < r.1)

/-- `.limit(limit)` applied to the query. -/
def queryLimited (q : List VRow) (limit : Option Nat) : List VRow :=
  match limit with
  | none => q
  | some l => q.take l

/-- `query_and_bundle(session, fields, offset, limit, filter_)`: apply the
filter (`id_field > x`) or the offset, then the limit; `zip(*results)`
raises `ValueError` on an empty result set. -/
def query_and_bundle (rows : List VRow) (offset : Nat) (limit : Option Nat)
    (filter_ : Option String) : Except String (List VRow) :=
  if queryLimited (queryFiltered rows offset filter_) limit = [] then
    .error "ValueError: not enough values to unpack"
  else .ok (queryLimited (queryFiltered rows offset filter_) limit)

/-- The `while offset < count` loop of `read_data`.  `maxc` and `nchunks`
carry the `max_chunks` bookkeeping (with `max_chunks=None`, python sets
`n_chunks=-1` and `max_chunks=0`, so the cap never fires).  `fuel` bounds
the iteration count; `read_data` supplies enough for every terminating run
(`chunksize ≥ 1`).  The accumulated list is the sequence of rows fetched
and written into the preallocated arrays; a chunk larger than the space
left in the arrays would make the numpy slice assignment raise. -/
def readLoop (source : List VRow) (chunksize count : Nat) (maxc : Int) :
    Nat → Nat → Option String → Int → List VRow → Except String (List VRow)
  | 0, _, _, _, acc => .ok acc
  | fuel + 1, offset, filter_, nchunks, acc =>
      if offset < count then
        if nchunks ≥ maxc then .ok acc
        else
          match query_and_bundle source offset
              (if offset + chunksize < count then some chunksize else none) filter_ with
          | .error er => .error er
          | .ok chunk =>
              if count - offset < chunk.length then
                .error "ValueError: could not broadcast input array"
              else
                readLoop source chunksize count maxc fuel (offset + chunksize)
                  (some (chunk.getLastD ("", 0)).1)
                  (if maxc > 0 then nchunks + 1 else nchunks) (acc ++ chunk)
      else .ok acc

/-- `read_data(data, ids, orm, id_field, database, chunksize, max_chunks)`:
`ids0` is the preallocated id array (`''` marks an unfilled slot), from
which the resume offset (`sum(ids != '')`) and the resume cursor
(`ids[offset-1]`) are derived.  Returns the rows fetched by this
invocation, in fetch order. -/
def read_data (source : List VRow) (ids0 : List String) (chunksize : Nat)
    (max_chunks : Option Nat) : Except String (List VRow) :=
  readLoop source chunksize source.length
    (match max_chunks with | none => 0 | some m => (m : Int))
    (source.length + 1)
    ((ids0.filter fun s => decide (s ≠ "")).length)
    (if (ids0.filter fun s => decide (s ≠ "")).length = 0 then none
     else ids0.get? ((ids0.filter fun s => decide (s ≠ "")).length - 1))
    (match max_chunks with | none => -1 | some _ => 0)
    []

/-- The primary-key values of every row of `data` are unchanged by
`cast_as_sql_python_type` (already of the declared python type and within
the declared maximum length).  Under this condition the coerced key tuple
coincides with the raw values the `exists` query compares against. -/
def KeysCoerceId (cols : List Column) (data : List Row) : Prop :=
  ∀ row ∈ data, ∀ c ∈ cols,
    match Row.find row c.name with
    | some v => cast_as_sql_python_type c v = .ok v
    | none => True

instance colCoerceDec (row : Row) (c : Column) :
    Decidable (match Row.find row c.name with
      | some v => cast_as_sql_python_type c v = .ok v
      | none => True) := by
  cases Row.find row c.name with
  | none => exact inferInstanceAs (Decidable True)
  | some v => exact inferInstanceAs (Decidable (cast_as_sql_python_type c v = Except.ok v))

instance keysCoerceIdDec (cols : List Column) (data : List Row) :
    Decidable (KeysCoerceId cols data) :=
  List.decidableBAll
    (fun row => ∀ c ∈ cols,
      match Row.find row c.name with
      | some v => cast_as_sql_python_type c v = .ok v
      | none => True)
    data

/-- The spec's first-occurrence-wins classification, stated from its words
(for comparison with `_filter_out_duplicates`): scanning the batch in input
order with a seen-set of primary-key tuples, the first row bearing a tuple
goes to the first list (to insert) and every later row bearing an equal
tuple goes to the second (existing).  `f` assigns each row its coerced
primary-key tuple. -/
def firstOccSplit (f : Row → PK) : List Row → List PK → List Row × List Row
  | [], _ => ([], [])
  | row :: rest, seen =>
      if f row ∈ seen then
        ((firstOccSplit f rest seen).1, row :: (firstOccSplit f rest seen).2)
      else
        (row :: (firstOccSplit f rest (seen ++ [f row])).1,
          (firstOccSplit f rest (seen ++ [f row])).2)

/-! ### Characterisation lemmas for the core filter loop -/

theorem processRow_missing {st : Store} {e : Entity} {lm : Bool} {s : FilterState} {row : Row}
    (hauto : is_auto_pkey e = false)
    (hkeys : (e.pkeyCols.all fun c => (Row.find row c.name).isSome) = false) :
    processRow st e lm s row = .ok { s with failed_objs := s.failed_objs ++ [row] } := by
  simp [processRow, hauto, hkeys]

theorem processRow_auto {st : Store} {e : Entity} {lm : Bool} {s : FilterState} {row : Row}
    (hauto : is_auto_pkey e = true) :
    processRow st e lm s row = .ok { s with objs := s.objs ++ [row] } := by
  simp [processRow, hauto]

theorem processRow_dup {st : Store} {e : Entity} {lm : Bool} {s : FilterState} {row : Row}
    {pk : PK} (hauto : is_auto_pkey e = false)
    (hkeys : (e.pkeyCols.all fun c => (Row.find row c.name).isSome) = true)
    (hpk : computePk e.pkeyCols row = .ok pk) (hmem : pk ∈ s.all_pks) :
    processRow st e lm s row = .ok { s with existing_objs := s.existing_objs ++ [row] } := by
  simp [processRow, hauto, hkeys, hpk, hmem]

theorem processRow_store_dup {st : Store} {e : Entity} {s : FilterState} {row : Row}
    {pk : PK} (hauto : is_auto_pkey e = false)
    (hkeys : (e.pkeyCols.all fun c => (Row.find row c.name).isSome) = true)
    (hpk : computePk e.pkeyCols row = .ok pk) (hmem : pk ∉ s.all_pks)
    (hex : existsQuery st e.pkeyCols row = true) :
    processRow st e false s row
      = .ok { s with all_pks := s.all_pks ++ [pk],
                     existing_objs := s.existing_objs ++ [row] } := by
  simp [processRow, hauto, hkeys, hpk, hmem, hex]

theorem processRow_fresh {st : Store} {e : Entity} {lm : Bool} {s : FilterState} {row : Row}
    {pk : PK} (hauto : is_auto_pkey e = false)
    (hkeys : (e.pkeyCols.all fun c => (Row.find row c.name).isSome) = true)
    (hpk : computePk e.pkeyCols row = .ok pk) (hmem : pk ∉ s.all_pks)
    (hres : lm = true ∨ existsQuery st e.pkeyCols row = false) :
    processRow st e lm s row
      = .ok { s with all_pks := s.all_pks ++ [pk], objs := s.objs ++ [row] } := by
  rcases hres with h | h <;> simp [processRow, hauto, hkeys, hpk, hmem, h]

/-- Every successful loop iteration classifies the row into exactly one of
the three output lists. -/
theorem processRow_count {st : Store} {e : Entity} {lm : Bool} {s s' : FilterState} {row : Row}
    (h : processRow st e lm s row = .ok s') :
    s'.objs.length + s'.existing_objs.length + s'.failed_objs.length
      = s.objs.length + s.existing_objs.length + s.failed_objs.length + 1 := by
  unfold processRow at h
  split at h
  · simp only [Except.ok.injEq] at h
    subst h; simp; omega
  · split at h
    · simp only [Except.ok.injEq] at h
      subst h; simp; omega
    · split at h
      · exact absurd h (by simp)
      · split at h
        · simp only [Except.ok.injEq] at h
          subst h; simp; omega
        · split at h <;>
          · simp only [Except.ok.injEq] at h
            subst h; simp; omega

theorem filterLoop_count {st : Store} {e : Entity} {lm : Bool} :
    ∀ {data : List Row} {s s' : FilterState},
    filterLoop st e lm data s = .ok s' →
    s'.objs.length + s'.existing_objs.length + s'.failed_objs.length
      = s.objs.length + s.existing_objs.length + s.failed_objs.length + data.length
  | [], s, s', h => by
      simp only [filterLoop, Except.ok.injEq] at h
      subst h; simp
  | row :: rest, s, s', h => by
      simp only [filterLoop] at h
      split at h
      · exact absurd h (by simp)
      · rename_i s₁ hs₁
        have h₁ := processRow_count hs₁
        have h₂ := filterLoop_count h
        simp only [List.length_cons]
        omega

theorem production_processRow_count {st : Store} {e : Entity} {lm : Bool}
    {s s' : FilterState} {row : Row}
    (h : production_processRow st e lm s row = .ok s') :
    s'.objs.length + s'.existing_objs.length + s'.failed_objs.length
      = s.objs.length + s.existing_objs.length + s.failed_objs.length + 1 := by
  unfold production_processRow at h
  split at h
  · simp only [Except.ok.injEq] at h
    subst h; simp; omega
  · split at h
    · exact absurd h (by simp)
    · split at h
      · simp only [Except.ok.injEq] at h
        subst h; simp; omega
      · split at h <;>
        · simp only [Except.ok.injEq] at h
          subst h; simp; omega

theorem production_filterLoop_count {st : Store} {e : Entity} {lm : Bool} :
    ∀ {data : List Row} {s s' : FilterState},
    production_filterLoop st e lm data s = .ok s' →
    s'.objs.length + s'.existing_objs.length + s'.failed_objs.length
      = s.objs.length + s.existing_objs.length + s.failed_objs.length + data.length
  | [], s, s', h => by
      simp only [production_filterLoop, Except.ok.injEq] at h
      subst h; simp
  | row :: rest, s, s', h => by
      simp only [production_filterLoop] at h
      split at h
      · exact absurd h (by simp)
      · rename_i s₁ hs₁
        have h₁ := production_processRow_count hs₁
        have h₂ := production_filterLoop_count h
        simp only [List.length_cons]
        omega

/-- C1.  Count conservation: whenever the duplicate filter returns (for any
entity, store state and matching mode, in both the core and the production
variant), every input row lands in exactly one of `to_insert`, `existing`
and `failed`, so the three lengths sum to the input length. -/
theorem C1_count_conservation (st : Store) (e : Entity) (data : List Row)
    (lm : Bool) (ins exi fl : List Row) :
    (_filter_out_duplicates st e data lm = .ok (ins, exi, fl) →
      ins.length + exi.length + fl.length = data.length) ∧
    (production_filter_out_duplicates st e data lm = .ok (ins, exi, fl) →
      ins.length + exi.length + fl.length = data.length) := by
  constructor
  · intro h
    unfold _filter_out_duplicates at h
    cases hs : filterLoop st e lm data (filterInit st e lm) with
    | error er => rw [hs] at h; exact absurd h (by simp)
    | ok s =>
        rw [hs] at h
        simp only [Except.ok.injEq, Prod.mk.injEq] at h
        obtain ⟨h1, h2, h3⟩ := h
        have := filterLoop_count hs
        subst h1 h2 h3
        simpa [filterInit] using this
  · intro h
    unfold production_filter_out_duplicates at h
    cases hs : production_filterLoop st e lm data (productionInit st lm) with
    | error er => rw [hs] at h; exact absurd h (by simp)
    | ok s =>
        rw [hs] at h
        simp only [Except.ok.injEq, Prod.mk.injEq] at h
        obtain ⟨h1, h2, h3⟩ := h
        have := production_filterLoop_count hs
        subst h1 h2 h3
        simpa [productionInit] using this

/-- Witness for C1 at a concrete batch: three rows, one in-batch duplicate,
one row missing its key. -/
theorem C1_count_conservation_witness :
    _filter_out_duplicates ⟨[]⟩ ⟨[⟨"id", ColType.intCol, false⟩]⟩
        [[("id", Value.intV 1)], [("id", Value.intV 1)], [("v", Value.strV "x")]] false
      = .ok ([[("id", Value.intV 1)]], [[("id", Value.intV 1)]], [[("v", Value.strV "x")]]) ∧
    production_filter_out_duplicates ⟨[]⟩ ⟨[⟨"id", ColType.intCol, false⟩]⟩
        [[("id", Value.intV 1)], [("id", Value.intV 1)], [("v", Value.strV "x")]] false
      = .ok ([[("id", Value.intV 1)]], [[("id", Value.intV 1)]], [[("v", Value.strV "x")]]) ∧
    (1 : Nat) + 1 + 1 = 3 :=
  ⟨by decide, by decide,
    (C1_count_conservation ⟨[]⟩ ⟨[⟨"id", ColType.intCol, false⟩]⟩
        [[("id", Value.intV 1)], [("id", Value.intV 1)], [("v", Value.strV "x")]] false
        [[("id", Value.intV 1)]] [[("id", Value.intV 1)]] [[("v", Value.strV "x")]]).1
      (by decide)⟩

/-! ### Auto-increment bypass (shared helper, C6) -/

theorem filterLoop_auto {st : Store} {e : Entity} {lm : Bool}
    (hauto : is_auto_pkey e = true) :
    ∀ (data : List Row) (s : FilterState),
    filterLoop st e lm data s = .ok { s with objs := s.objs ++ data }
  | [], s => by simp [filterLoop]
  | row :: rest, s => by
      rw [filterLoop, processRow_auto hauto]
      show filterLoop st e lm rest _ = _
      rw [filterLoop_auto hauto rest]
      simp

/-- A successfully coerced primary-key tuple presupposes every key field
present in the row. -/
theorem computePk_ok_keys : ∀ (cols : List Column) (row : Row) (pk : PK),
    computePk cols row = .ok pk →
    (cols.all fun c => (Row.find row c.name).isSome) = true
  | [], _, _, _ => rfl
  | c :: rest, row, pk, h => by
      cases hf : Row.find row c.name with
      | none => simp [computePk, hf] at h
      | some v =>
          rw [List.all_cons, Bool.and_eq_true]
          refine ⟨by rw [hf]; rfl, ?_⟩
          cases hr : computePk rest row with
          | error er =>
              simp only [computePk, hf, hr] at h
              cases hc : cast_as_sql_python_type c v <;> simp [hc] at h
          | ok pks => exact computePk_ok_keys rest row pks hr

/-- Against an empty store (so the store contributes no duplicates and no
seen-set seeding in either mode), the filter loop classifies every batch by
first occurrence of the coerced primary-key tuple, in input order, with no
failures. -/
theorem filterLoop_firstOcc {e : Entity} (hauto : is_auto_pkey e = false)
    (lm : Bool) (f : Row → PK) :
    ∀ (data : List Row) (s : FilterState),
    (∀ row ∈ data, computePk e.pkeyCols row = .ok (f row)) →
    ∃ pks', filterLoop ⟨[]⟩ e lm data s
      = .ok { all_pks := pks'
              objs := s.objs ++ (firstOccSplit f data s.all_pks).1
              existing_objs := s.existing_objs ++ (firstOccSplit f data s.all_pks).2
              failed_objs := s.failed_objs }
  | [], s, _ => ⟨s.all_pks, by rw [filterLoop, firstOccSplit]; simp⟩
  | row :: rest, s, hall => by
      have hrow := hall row (List.mem_cons_self row rest)
      have hrest : ∀ r ∈ rest, computePk e.pkeyCols r = .ok (f r) :=
        fun r hr => hall r (List.mem_cons_of_mem row hr)
      have hkeys := computePk_ok_keys e.pkeyCols row (f row) hrow
      by_cases hmem : f row ∈ s.all_pks
      · obtain ⟨pks', hloop⟩ := filterLoop_firstOcc hauto lm f rest
          { s with existing_objs := s.existing_objs ++ [row] } hrest
        refine ⟨pks', ?_⟩
        rw [filterLoop, processRow_dup hauto hkeys hrow hmem]
        show filterLoop ⟨[]⟩ e lm rest _ = _
        rw [hloop, firstOccSplit, if_pos hmem]
        simp
      · obtain ⟨pks', hloop⟩ := filterLoop_firstOcc hauto lm f rest
          { s with all_pks := s.all_pks ++ [f row], objs := s.objs ++ [row] } hrest
        refine ⟨pks', ?_⟩
        rw [filterLoop, processRow_fresh hauto hkeys hrow hmem
            (Or.inr (rfl : existsQuery ⟨[]⟩ e.pkeyCols row = false))]
        show filterLoop ⟨[]⟩ e lm rest _ = _
        rw [hloop, firstOccSplit, if_neg hmem]
        simp

/-- C4.  In-batch duplicate detection, first occurrence wins: for *every*
input batch over a non-auto-increment key, an empty store and either
matching mode, the filter classifies rows in input order by first
occurrence of the coerced Primary Key Tuple — the first row bearing a
tuple goes to `to_insert`, every later row with an equal tuple goes to
`existing` (before any commit), and nothing fails; in particular the
spec's example batch yields exactly the claimed three lists. -/
theorem C4_in_batch_first_wins :
    (∀ (e : Entity) (data : List Row) (lm : Bool) (f : Row → PK),
      is_auto_pkey e = false →
      (∀ row ∈ data, computePk e.pkeyCols row = .ok (f row)) →
      _filter_out_duplicates ⟨[]⟩ e data lm
        = .ok ((firstOccSplit f data []).1, (firstOccSplit f data []).2, [])) ∧
    (∀ lm : Bool,
      _filter_out_duplicates ⟨[]⟩ ⟨[⟨"id", ColType.intCol, false⟩]⟩
          [[("id", Value.intV 1), ("v", Value.strV "a")],
           [("id", Value.intV 1), ("v", Value.strV "b")],
           [("id", Value.intV 2), ("v", Value.strV "c")]] lm
        = .ok ([[("id", Value.intV 1), ("v", Value.strV "a")],
                [("id", Value.intV 2), ("v", Value.strV "c")]],
               [[("id", Value.intV 1), ("v", Value.strV "b")]],
               [])) := by
  constructor
  · intro e data lm f hauto hall
    have hinit : filterInit ⟨[]⟩ e lm = ⟨[], [], [], []⟩ := by
      simp [filterInit]
    obtain ⟨pks', hloop⟩ := filterLoop_firstOcc hauto lm f data ⟨[], [], [], []⟩ hall
    unfold _filter_out_duplicates
    rw [hinit, hloop]
    show Except.ok _ = _
    simp
  · intro lm
    cases lm <;> decide

/-- Witness for C4: the general first-occurrence theorem applied to the
spec's example batch, with the key-tuple assignment made explicit. -/
theorem C4_in_batch_first_wins_witness :
    _filter_out_duplicates ⟨[]⟩ ⟨[⟨"id", ColType.intCol, false⟩]⟩
        [[("id", Value.intV 1), ("v", Value.strV "a")],
         [("id", Value.intV 1), ("v", Value.strV "b")],
         [("id", Value.intV 2), ("v", Value.strV "c")]] false
      = .ok ([[("id", Value.intV 1), ("v", Value.strV "a")],
              [("id", Value.intV 2), ("v", Value.strV "c")]],
             [[("id", Value.intV 1), ("v", Value.strV "b")]],
             []) := by
  have h := C4_in_batch_first_wins.1 ⟨[⟨"id", ColType.intCol, false⟩]⟩
    [[("id", Value.intV 1), ("v", Value.strV "a")],
     [("id", Value.intV 1), ("v", Value.strV "b")],
     [("id", Value.intV 2), ("v", Value.strV "c")]] false
    (fun row => [(Row.find row "id").getD (Value.intV 0)])
    (by decide) (by decide)
  rw [h]
  decide

/-- C5.  Missing-key rows become `failed`, not exceptions: a row lacking a
declared (non-auto-increment) primary-key field is appended to
`failed_objs` and the loop proceeds with the rest of the batch unchanged;
on the spec's example, `[{"v":"x"}]` against key `id` yields
`failed == [{"v":"x"}]` with the other two lists empty, in either mode. -/
theorem C5_missing_key_failed :
    (∀ (st : Store) (e : Entity) (lm : Bool) (s : FilterState) (row : Row)
        (rest : List Row),
      is_auto_pkey e = false →
      (∃ c ∈ e.pkeyCols, Row.find row c.name = none) →
      filterLoop st e lm (row :: rest) s
        = filterLoop st e lm rest { s with failed_objs := s.failed_objs ++ [row] }) ∧
    (∀ lm : Bool,
      _filter_out_duplicates ⟨[]⟩ ⟨[⟨"id", ColType.intCol, false⟩]⟩
          [[("v", Value.strV "x")]] lm
        = .ok ([], [], [[("v", Value.strV "x")]])) := by
  constructor
  · intro st e lm s row rest hauto hmiss
    have hkeys : (e.pkeyCols.all fun c => (Row.find row c.name).isSome) = false := by
      obtain ⟨c, hc, hfind⟩ := hmiss
      by_contra hall
      rw [Bool.not_eq_false, List.all_eq_true] at hall
      have := hall c hc
      rw [hfind] at this
      simp at this
    rw [filterLoop, processRow_missing hauto hkeys]
  · intro lm
    cases lm <;> decide

/-- Witness for C5: the general part applied to the spec's example row. -/
theorem C5_missing_key_failed_witness :
    filterLoop ⟨[]⟩ ⟨[⟨"id", ColType.intCol, false⟩]⟩ false
        [[("v", Value.strV "x")]] (filterInit ⟨[]⟩ ⟨[⟨"id", ColType.intCol, false⟩]⟩ false)
      = filterLoop ⟨[]⟩ ⟨[⟨"id", ColType.intCol, false⟩]⟩ false []
          { filterInit ⟨[]⟩ ⟨[⟨"id", ColType.intCol, false⟩]⟩ false with
            failed_objs := [[("v", Value.strV "x")]] } :=
  C5_missing_key_failed.1 ⟨[]⟩ ⟨[⟨"id", ColType.intCol, false⟩]⟩ false
    (filterInit ⟨[]⟩ ⟨[⟨"id", ColType.intCol, false⟩]⟩ false)
    [("v", Value.strV "x")] []
    rfl ⟨⟨"id", ColType.intCol, false⟩, by decide, by decide⟩

/-- C6.  Auto-increment bypass: when every primary-key column is an
auto-incrementing integer column, key extraction, the seen-set and the
store existence check are all skipped and every input row is appended to
`to_insert`; `existing` and `failed` are always empty. -/
theorem C6_auto_pkey_bypass (st : Store) (e : Entity) (data : List Row) (lm : Bool)
    (hauto : is_auto_pkey e = true) :
    _filter_out_duplicates st e data lm = .ok (data, [], []) := by
  unfold _filter_out_duplicates
  rw [filterLoop_auto hauto]
  show Except.ok _ = _
  simp [filterInit]

/-- Witness for C6: a table with a single auto-increment integer key; a
duplicate-looking batch is inserted wholesale even against a non-empty
store. -/
theorem C6_auto_pkey_bypass_witness :
    _filter_out_duplicates ⟨[[Value.intV 7]]⟩ ⟨[⟨"id", ColType.intCol, true⟩]⟩
        [[("id", Value.intV 7)], [("id", Value.intV 7)], [("v", Value.strV "x")]] true
      = .ok ([[("id", Value.intV 7)], [("id", Value.intV 7)], [("v", Value.strV "x")]],
             [], []) :=
  C6_auto_pkey_bypass ⟨[[Value.intV 7]]⟩ ⟨[⟨"id", ColType.intCol, true⟩]⟩
    [[("id", Value.intV 7)], [("id", Value.intV 7)], [("v", Value.strV "x")]] true
    (by decide)

/-- C10.  Key coercion is only total for bounded string columns: on a
string column with no declared length (`type.length is None`, e.g. TEXT),
`cast_as_sql_python_type` raises `TypeError` for every input value (the
python comparison `None < len(data)` is ill-typed), so primary-key
extraction in the duplicate filter propagates the exception instead of
classifying the row as failed; for a declared finite length the cast
truncates over-length strings to that length and leaves shorter strings
unchanged. -/
theorem C10_unbounded_string_cast :
    (∀ (nm : String) (ai : Bool) (v : Value),
      cast_as_sql_python_type ⟨nm, ColType.strCol none, ai⟩ v = .error .typeError) ∧
    (∀ lm : Bool,
      _filter_out_duplicates ⟨[]⟩ ⟨[⟨"id", ColType.strCol none, false⟩]⟩
          [[("id", Value.strV "x")]] lm = .error .typeError) ∧
    (∀ (nm : String) (ai : Bool) (L : Nat) (s : String), L < s.length →
      cast_as_sql_python_type ⟨nm, ColType.strCol (some L), ai⟩ (.strV s)
        = .ok (.strV (s.take L))) ∧
    (∀ (nm : String) (ai : Bool) (L : Nat) (s : String), ¬ L < s.length →
      cast_as_sql_python_type ⟨nm, ColType.strCol (some L), ai⟩ (.strV s)
        = .ok (.strV s)) := by
  refine ⟨fun nm ai v => ?_, fun lm => ?_, fun nm ai L s h => ?_, fun nm ai L s h => ?_⟩
  · cases v <;> simp [cast_as_sql_python_type, pythonTypeCast]
  · cases lm <;> decide
  · simp [cast_as_sql_python_type, pythonTypeCast, h]
  · simp [cast_as_sql_python_type, pythonTypeCast, h]

/-- Witness for C10: a TEXT key column crashes the cast and the filter on
a short string, while a VARCHAR(3) column truncates "abcd" and keeps "ab". -/
theorem C10_unbounded_string_cast_witness :
    cast_as_sql_python_type ⟨"id", ColType.strCol none, false⟩ (.strV "x")
      = .error .typeError ∧
    _filter_out_duplicates ⟨[]⟩ ⟨[⟨"id", ColType.strCol none, false⟩]⟩
        [[("id", Value.strV "x")]] false = .error .typeError ∧
    cast_as_sql_python_type ⟨"id", ColType.strCol (some 3), false⟩ (.strV "abcd")
      = .ok (.strV "abc") ∧
    cast_as_sql_python_type ⟨"id", ColType.strCol (some 3), false⟩ (.strV "ab")
      = .ok (.strV "ab") :=
  ⟨C10_unbounded_string_cast.1 "id" false (.strV "x"),
   C10_unbounded_string_cast.2.1 false,
   by rw [C10_unbounded_string_cast.2.2.1 "id" false 3 "abcd" (by decide)]; decide,
   C10_unbounded_string_cast.2.2.2 "id" false 3 "ab" (by decide)⟩

/-- The `batch_total` entry of the totals computed for one batch is this
batch's inserted+existing+failed count, regardless of accumulated totals. -/
theorem total_records_batch_total (i ex fl : List Row)
    (prev : Option (List (String × Nat))) :
    SDict.get (total_records [("inserted", i), ("existing", ex), ("failed", fl)] prev)
        "batch_total"
      = i.length + ex.length + fl.length := by
  cases prev <;> simp [total_records, SDict.get] <;> omega

/-- C2.  Reconciliation in the chunked bulk writer: (1) a batch whose
insertion outcome does not account for every row makes the loop raise at
that batch — the result is the reconciliation error for *this* batch no
matter what batches remain, so no further batch is processed; (2) the
end-of-run check raises the reconciliation error whenever the accumulated
`total` differs from the input length; (3) `_insert_data` applies that
end-of-run check to the loop's accumulated totals.  Both error messages
name the target table. -/
theorem C2_reconciliation :
    (∀ (tableName : String) (ins : List Row → List Row × List Row × List Row)
        (totals : Option (List (String × Nat))) (batch : List Row)
        (rest : List (List Row)),
      (ins batch).1.length + (ins batch).2.1.length + (ins batch).2.2.length
          ≠ batch.length →
      insertLoop tableName ins (batch :: rest) totals
        = .error (reconcileMsg tableName batch.length)) ∧
    (∀ (tableName : String) (n : Nat) (totals : List (String × Nat)),
      SDict.get totals "total" ≠ n →
      finalCheck tableName n (some totals) = .error (reconcileMsg tableName n)) ∧
    (∀ (tableName : String) (ins : List Row → List Row × List Row × List Row)
        (data : List Row) (batch_size : Nat) (t : Option (List (String × Nat))),
      insertLoop tableName ins (split_batches data batch_size) none = .ok t →
      _insert_data tableName ins data batch_size = finalCheck tableName data.length t) := by
  refine ⟨fun tn ins totals batch rest hne => ?_, fun tn n totals hne => ?_,
          fun tn ins data bs t hloop => ?_⟩
  · rw [insertLoop]
    rw [total_records_batch_total]
    simp [hne]
  · simp [finalCheck, hne]
  · simp [_insert_data, hloop]

/-- Witness for C2: a store that silently drops every row of a 1-row batch
trips the per-batch check with the table-naming message; a totals dict with
`total = 5` against 3 expected rows trips the end-of-run check; a faithful
store reaches the end-of-run check through `_insert_data`. -/
theorem C2_reconciliation_witness :
    insertLoop "organizations" (fun _ => ([], [], [])) [[[("id", Value.intV 1)]]] none
      = .error "Inserted organizations data is not equal to original: 1" ∧
    finalCheck "organizations" 3 (some [("total", 5)])
      = .error "Inserted organizations data is not equal to original: 3" ∧
    _insert_data "organizations" (fun b => (b, [], [])) [[("id", Value.intV 1)]] 2
      = finalCheck "organizations" 1
          (some [("inserted", 1), ("existing", 0), ("failed", 0),
                 ("total", 1), ("batch_total", 1)]) := by
  refine ⟨?_, ?_, ?_⟩
  · exact C2_reconciliation.1 "organizations" (fun _ => ([], [], [])) none
      [[("id", Value.intV 1)]] [] (by decide)
  · exact C2_reconciliation.2.1 "organizations" 3 [("total", 5)] (by decide)
  · exact C2_reconciliation.2.2 "organizations" (fun b => (b, [], []))
      [[("id", Value.intV 1)]] 2
      (some [("inserted", 1), ("existing", 0), ("failed", 0), ("total", 1), ("batch_total", 1)])
      (by decide)

/-! ### Behaviour of the chunk-yielding loop of `db_session_query` -/

theorem yieldChunk_none : ∀ (ch : List Row) (t : Nat),
    yieldChunk none t ch = (ch, ch.length, false)
  | [], _ => rfl
  | r :: rs, t => by
      rw [yieldChunk]
      simp [yieldChunk_none rs (t + 1)]

theorem yieldChunk_some_hit {l : Nat} : ∀ (ch : List Row) (t : Nat),
    t < l → l ≤ t + ch.length →
    yieldChunk (some l) t ch = (ch.take (l - t), l - t, true)
  | [], t, hlo, hhi => by simp at hlo hhi; omega
  | r :: rs, t, hlo, hhi => by
      rw [yieldChunk]
      by_cases hl : l = t + 1
      · subst hl
        simp
      · have hlo' : t + 1 < l := by omega
        have hhi' : l ≤ (t + 1) + rs.length := by
          simp at hhi; omega
        rw [if_neg (by simp [hl])]
        simp only [yieldChunk_some_hit rs (t + 1) hlo' hhi']
        have h1 : l - t = (l - (t + 1)) + 1 := by omega
        simp [h1]

theorem yieldChunk_some_miss {l : Nat} : ∀ (ch : List Row) (t : Nat),
    l ≤ t ∨ t + ch.length < l →
    yieldChunk (some l) t ch = (ch, ch.length, false)
  | [], _, _ => rfl
  | r :: rs, t, h => by
      rw [yieldChunk]
      have hl : ¬ l = t + 1 := by simp at h; omega
      rw [if_neg (by simp [hl])]
      have h' : l ≤ t + 1 ∨ (t + 1) + rs.length < l := by simp at h; omega
      simp [yieldChunk_some_miss rs (t + 1) h']

theorem dsqLoop_none {rows : List Row} {cs off : Nat} (hcs : 1 ≤ cs) :
    ∀ (fuel n : Nat) (acc : List Row),
    (rows.drop (off + n * cs)).length + 1 ≤ fuel →
    dsqLoop rows cs none off fuel n acc = acc ++ rows.drop (off + n * cs)
  | 0, n, acc, hfuel => by omega
  | fuel + 1, n, acc, hfuel => by
      rw [dsqLoop]
      simp only [yieldChunk_none]
      by_cases hfull : ((rows.drop (off + n * cs)).take cs).length = cs
      · rw [if_neg (by simp), if_pos hfull]
        have hcsle : cs ≤ (rows.drop (off + n * cs)).length := by
          rw [List.length_take] at hfull
          omega
        have hdrop : rows.drop (off + (n + 1) * cs) = (rows.drop (off + n * cs)).drop cs := by
          rw [List.drop_drop]
          congr 1
          ring
        have hlen : (rows.drop (off + (n + 1) * cs)).length + 1 ≤ fuel := by
          rw [hdrop, List.length_drop]
          omega
        rw [dsqLoop_none hcs fuel (n + 1) _ hlen, hdrop]
        simp [List.take_append_drop]
      · rw [if_neg (by simp), if_neg hfull]
        have hshort : (rows.drop (off + n * cs)).length ≤ cs := by
          rw [List.length_take] at hfull
          omega
        rw [List.take_of_length_le hshort]

theorem dsqLoop_some {rows : List Row} {cs off l : Nat} (hcs : 1 ≤ cs) :
    ∀ (fuel n : Nat) (acc : List Row),
    (rows.drop (off + n * cs)).length + 1 ≤ fuel → n * cs < l →
    dsqLoop rows cs (some l) off fuel n acc
      = acc ++ (rows.drop (off + n * cs)).take (l - n * cs)
  | 0, n, acc, hfuel, _ => by omega
  | fuel + 1, n, acc, hfuel, hlt => by
      rw [dsqLoop]
      by_cases hhit : l ≤ n * cs + ((rows.drop (off + n * cs)).take cs).length
      · rw [yieldChunk_some_hit _ _ hlt hhit]
        have hmin : min (l - n * cs) cs = l - n * cs := by
          rw [List.length_take] at hhit
          omega
        simp [List.take_take, hmin]
      · rw [yieldChunk_some_miss _ _ (by omega)]
        simp only
        by_cases hfull : ((rows.drop (off + n * cs)).take cs).length = cs
        · rw [if_neg (by simp), if_pos hfull]
          have hcsle : cs ≤ (rows.drop (off + n * cs)).length := by
            rw [List.length_take] at hfull
            omega
          have hdrop : rows.drop (off + (n + 1) * cs) = (rows.drop (off + n * cs)).drop cs := by
            rw [List.drop_drop]
            congr 1
            ring
          have hlen : (rows.drop (off + (n + 1) * cs)).length + 1 ≤ fuel := by
            rw [hdrop, List.length_drop]
            omega
          have hmul : (n + 1) * cs = n * cs + cs := by ring
          have hlt' : (n + 1) * cs < l := by
            rw [List.length_take] at hhit
            omega
          rw [dsqLoop_some hcs fuel (n + 1) _ hlen hlt', hdrop]
          have hsplit : l - n * cs = cs + (l - (n + 1) * cs) := by omega
          rw [hsplit, List.take_add]
          simp
        · rw [if_neg (by simp), if_neg hfull]
          have hshort : (rows.drop (off + n * cs)).length ≤ cs := by
            rw [List.length_take] at hfull
            omega
          have hbig : (rows.drop (off + n * cs)).length ≤ l - n * cs := by
            rw [List.length_take] at hhit
            omega
          rw [List.take_of_length_le hshort, List.take_of_length_le hbig]

/-- C9 counterexample.  As stated the claim fails at `limit = 0`: the stop
test `n*chunksize + n_results == limit` is an equality that the running
total (which starts at 1 after the first yield) never meets, so the reader
yields every row — one row here — instead of at most 0. -/
theorem C9_limit_zero_counterexample :
    db_session_query [[("id", Value.intV 1)]] 1 (some 0) 0 = [[("id", Value.intV 1)]] ∧
    ¬ (db_session_query [[("id", Value.intV 1)]] 1 (some 0) 0).length ≤ 0 := by
  decide

/-- C9 (amended).  For `chunksize ≥ 1` the reader yields rows until a chunk
comes back short of `chunksize` (end of data) or exactly `limit` rows have
been yielded, whichever comes first, *provided `limit ≥ 1` when a limit is
given*: with no limit it yields everything after `offset`, and with
`limit = l ≥ 1` it yields exactly the first `l` of those rows (so never
more than `l`); with `limit = 0` the equality test never fires and the
reader behaves as if unlimited. -/
theorem C9_reader_limit_amended (rows : List Row) (cs off : Nat) (hcs : 1 ≤ cs) :
    db_session_query rows cs none off = rows.drop off ∧
    (∀ l : Nat, 1 ≤ l → db_session_query rows cs (some l) off = (rows.drop off).take l) := by
  constructor
  · unfold db_session_query
    rw [dsqLoop_none hcs (rows.length + 1) 0 []
        (by rw [List.length_drop]; omega)]
    simp
  · intro l hl
    unfold db_session_query
    rw [dsqLoop_some hcs (rows.length + 1) 0 []
        (by rw [List.length_drop]; omega) (by simpa using hl)]
    simp

/-- Witness for C9 (amended): five rows, chunk size 2, offset 1; unlimited
reads the remaining four rows, `limit = 3` reads exactly three. -/
theorem C9_reader_limit_amended_witness :
    db_session_query
        [[("id", Value.intV 1)], [("id", Value.intV 2)], [("id", Value.intV 3)],
         [("id", Value.intV 4)], [("id", Value.intV 5)]] 2 none 1
      = [[("id", Value.intV 2)], [("id", Value.intV 3)],
         [("id", Value.intV 4)], [("id", Value.intV 5)]] ∧
    db_session_query
        [[("id", Value.intV 1)], [("id", Value.intV 2)], [("id", Value.intV 3)],
         [("id", Value.intV 4)], [("id", Value.intV 5)]] 2 (some 3) 1
      = [[("id", Value.intV 2)], [("id", Value.intV 3)], [("id", Value.intV 4)]] := by
  have h := C9_reader_limit_amended
    [[("id", Value.intV 1)], [("id", Value.intV 2)], [("id", Value.intV 3)],
     [("id", Value.intV 4)], [("id", Value.intV 5)]] 2 1 (by decide)
  exact ⟨by rw [h.1]; decide, by rw [h.2 3 (by decide)]; decide⟩

/-! ### Mode equivalence of the duplicate filter -/

/-- When every key field is present and untouched by coercion, the coerced
primary-key tuple exists and is exactly the tuple the `exists` statement
compares against: it satisfies `pkMatches` and is the only tuple to do so. -/
theorem computePk_of_id : ∀ (cols : List Column) (row : Row),
    (cols.all fun c => (Row.find row c.name).isSome) = true →
    (∀ c ∈ cols, match Row.find row c.name with
      | some v => cast_as_sql_python_type c v = .ok v
      | none => True) →
    ∃ pk, computePk cols row = .ok pk ∧ pkMatches cols pk row = true ∧
      ∀ pk', pkMatches cols pk' row = true → pk' = pk
  | [], row, _, _ => by
      refine ⟨[], rfl, rfl, fun pk' hm => ?_⟩
      cases pk' with
      | nil => rfl
      | cons w ws => exact Bool.noConfusion hm
  | c :: rest, row, hall, hid => by
      rw [List.all_cons, Bool.and_eq_true] at hall
      obtain ⟨h1, h2⟩ := hall
      obtain ⟨v, hv⟩ := Option.isSome_iff_exists.mp h1
      have hcast : cast_as_sql_python_type c v = .ok v := by
        have hc := hid c (List.mem_cons_self c rest)
        rw [hv] at hc
        exact hc
      obtain ⟨pks, hpk, hmatch, huniq⟩ :=
        computePk_of_id rest row h2 (fun c' hc' => hid c' (List.mem_cons_of_mem c hc'))
      refine ⟨v :: pks, ?_, ?_, ?_⟩
      · simp only [computePk, hv, hcast, hpk]
      · rw [pkMatches, hv, Bool.and_eq_true]
        exact ⟨by simp, hmatch⟩
      · intro pk' hm
        cases pk' with
        | nil => exact Bool.noConfusion hm
        | cons w ws =>
            rw [pkMatches, Bool.and_eq_true] at hm
            obtain ⟨hw, hws⟩ := hm
            rw [hv] at hw
            have hwv : v = w := by simpa using hw
            rw [← hwv, huniq ws hws]

/-- When the candidate row determines a unique matching tuple, the per-row
existence query is exactly membership of that tuple in the store. -/
theorem existsQuery_iff_mem (st : Store) {cols : List Column} {row : Row} {pk : PK}
    (hself : pkMatches cols pk row = true)
    (huniq : ∀ pk', pkMatches cols pk' row = true → pk' = pk) :
    existsQuery st cols row = true ↔ pk ∈ st.pks := by
  unfold existsQuery
  rw [List.any_eq_true]
  constructor
  · rintro ⟨q, hq, hm⟩
    rw [← huniq q hm]
    exact hq
  · intro h
    exact ⟨pk, h, hself⟩

/-- Core equivalence induction: starting from per-row-mode and low-memory
states that agree on the three output lists and whose seen-sets satisfy
`pk ∈ low-memory set ↔ pk ∈ per-row set ∨ pk ∈ store`, the two loops
produce identical classifications whenever every key value of the batch is
unchanged by coercion. -/
theorem filterLoop_mode_equiv (st : Store) {e : Entity} (hauto : is_auto_pkey e = false) :
    ∀ (data : List Row), KeysCoerceId e.pkeyCols data →
    ∀ (sF sT : FilterState),
    sF.objs = sT.objs → sF.existing_objs = sT.existing_objs →
    sF.failed_objs = sT.failed_objs →
    (∀ pk : PK, pk ∈ sT.all_pks ↔ pk ∈ sF.all_pks ∨ pk ∈ st.pks) →
    ∃ sF' sT',
      filterLoop st e false data sF = .ok sF' ∧
      filterLoop st e true data sT = .ok sT' ∧
      sF'.objs = sT'.objs ∧ sF'.existing_objs = sT'.existing_objs ∧
      sF'.failed_objs = sT'.failed_objs
  | [], _, sF, sT, h1, h2, h3, _ => ⟨sF, sT, rfl, rfl, h1, h2, h3⟩
  | row :: rest, hid, sF, sT, h1, h2, h3, hrel => by
      have hidrow := hid row (List.mem_cons_self row rest)
      have hidrest : KeysCoerceId e.pkeyCols rest :=
        fun r hr => hid r (List.mem_cons_of_mem row hr)
      by_cases hkeys : (e.pkeyCols.all fun c => (Row.find row c.name).isSome) = true
      · obtain ⟨pk, hpk, hmatch, huniq⟩ := computePk_of_id e.pkeyCols row hkeys hidrow
        have hexiff := existsQuery_iff_mem st hmatch huniq
        by_cases hmemF : pk ∈ sF.all_pks
        · have hmemT : pk ∈ sT.all_pks := (hrel pk).mpr (Or.inl hmemF)
          obtain ⟨sF', sT', e1, e2, c1, c2, c3⟩ :=
            filterLoop_mode_equiv st hauto rest hidrest
              { sF with existing_objs := sF.existing_objs ++ [row] }
              { sT with existing_objs := sT.existing_objs ++ [row] }
              h1 (by simp [h2]) h3 hrel
          exact ⟨sF', sT',
            by rw [filterLoop, processRow_dup hauto hkeys hpk hmemF]; exact e1,
            by rw [filterLoop, processRow_dup hauto hkeys hpk hmemT]; exact e2,
            c1, c2, c3⟩
        · by_cases hmemS : pk ∈ st.pks
          · have hmemT : pk ∈ sT.all_pks := (hrel pk).mpr (Or.inr hmemS)
            have hex : existsQuery st e.pkeyCols row = true := hexiff.mpr hmemS
            obtain ⟨sF', sT', e1, e2, c1, c2, c3⟩ :=
              filterLoop_mode_equiv st hauto rest hidrest
                { sF with all_pks := sF.all_pks ++ [pk],
                          existing_objs := sF.existing_objs ++ [row] }
                { sT with existing_objs := sT.existing_objs ++ [row] }
                h1 (by simp [h2]) h3
                (by
                  intro q
                  rw [List.mem_append, List.mem_singleton]
                  constructor
                  · intro hq
                    rcases (hrel q).mp hq with h | h
                    · exact Or.inl (Or.inl h)
                    · exact Or.inr h
                  · rintro ((h | rfl) | h)
                    · exact (hrel q).mpr (Or.inl h)
                    · exact hmemT
                    · exact (hrel q).mpr (Or.inr h))
            exact ⟨sF', sT',
              by rw [filterLoop, processRow_store_dup hauto hkeys hpk hmemF hex]; exact e1,
              by rw [filterLoop, processRow_dup hauto hkeys hpk hmemT]; exact e2,
              c1, c2, c3⟩
          · have hmemT : pk ∉ sT.all_pks := by
              intro hq
              rcases (hrel pk).mp hq with h | h
              · exact hmemF h
              · exact hmemS h
            have hex : existsQuery st e.pkeyCols row = false := by
              rw [Bool.eq_false_iff]
              exact fun h => hmemS (hexiff.mp h)
            obtain ⟨sF', sT', e1, e2, c1, c2, c3⟩ :=
              filterLoop_mode_equiv st hauto rest hidrest
                { sF with all_pks := sF.all_pks ++ [pk], objs := sF.objs ++ [row] }
                { sT with all_pks := sT.all_pks ++ [pk], objs := sT.objs ++ [row] }
                (by simp [h1]) h2 h3
                (by
                  intro q
                  simp only [List.mem_append, List.mem_singleton]
                  constructor
                  · rintro (hq | rfl)
                    · rcases (hrel q).mp hq with h | h
                      · exact Or.inl (Or.inl h)
                      · exact Or.inr h
                    · exact Or.inl (Or.inr rfl)
                  · rintro ((h | rfl) | h)
                    · exact Or.inl ((hrel q).mpr (Or.inl h))
                    · exact Or.inr rfl
                    · exact Or.inl ((hrel q).mpr (Or.inr h)))
            exact ⟨sF', sT',
              by rw [filterLoop,
                     processRow_fresh hauto hkeys hpk hmemF (Or.inr hex)]; exact e1,
              by rw [filterLoop,
                     processRow_fresh hauto hkeys hpk hmemT (Or.inl rfl)]; exact e2,
              c1, c2, c3⟩
      · have hkeys' : (e.pkeyCols.all fun c => (Row.find row c.name).isSome) = false := by
          revert hkeys
          cases e.pkeyCols.all fun c => (Row.find row c.name).isSome <;> simp
        obtain ⟨sF', sT', e1, e2, c1, c2, c3⟩ :=
          filterLoop_mode_equiv st hauto rest hidrest
            { sF with failed_objs := sF.failed_objs ++ [row] }
            { sT with failed_objs := sT.failed_objs ++ [row] }
            h1 h2 (by simp [h3]) hrel
        exact ⟨sF', sT',
          by rw [filterLoop, processRow_missing hauto hkeys']; exact e1,
          by rw [filterLoop, processRow_missing hauto hkeys']; exact e2,
          c1, c2, c3⟩

/-- C7 counterexample.  As stated the claim fails: on a VARCHAR(3) key
column whose store already holds "abc", the row `{"id": "abcd"}` is
classified `existing` in low-memory mode (its coerced, truncated key "abc"
is found in the pre-loaded key set) but `to_insert` in per-row mode (the
existence query compares the raw value "abcd" against the stored "abc"),
so the two modes return different classifications for the same input and
store state. -/
theorem C7_mode_counterexample :
    _filter_out_duplicates ⟨[[Value.strV "abc"]]⟩
        ⟨[⟨"id", ColType.strCol (some 3), false⟩]⟩
        [[("id", Value.strV "abcd")]] true
      = .ok ([], [[("id", Value.strV "abcd")]], []) ∧
    _filter_out_duplicates ⟨[[Value.strV "abc"]]⟩
        ⟨[⟨"id", ColType.strCol (some 3), false⟩]⟩
        [[("id", Value.strV "abcd")]] false
      = .ok ([[("id", Value.strV "abcd")]], [], []) ∧
    _filter_out_duplicates ⟨[[Value.strV "abc"]]⟩
        ⟨[⟨"id", ColType.strCol (some 3), false⟩]⟩
        [[("id", Value.strV "abcd")]] true
      ≠ _filter_out_duplicates ⟨[[Value.strV "abc"]]⟩
          ⟨[⟨"id", ColType.strCol (some 3), false⟩]⟩
          [[("id", Value.strV "abcd")]] false := by
  refine ⟨by decide, by decide, by decide⟩

/-- Mode equivalence of the filter under coercion-invariant keys (the
working lemma behind the amended C7 and the amended C3). -/
theorem filter_mode_equiv_of_id (st : Store) (e : Entity) (data : List Row)
    (hid : KeysCoerceId e.pkeyCols data) :
    _filter_out_duplicates st e data true = _filter_out_duplicates st e data false := by
  by_cases hauto : is_auto_pkey e = true
  · unfold _filter_out_duplicates
    rw [filterLoop_auto hauto, filterLoop_auto hauto]
    simp [filterInit]
  · have hauto' : is_auto_pkey e = false := by
      revert hauto
      cases is_auto_pkey e <;> simp
    obtain ⟨sF', sT', e1, e2, c1, c2, c3⟩ :=
      filterLoop_mode_equiv st hauto' data hid
        (filterInit st e false) (filterInit st e true) rfl rfl rfl
        (by simp [filterInit, hauto'])
    unfold _filter_out_duplicates
    rw [e1, e2]
    show Except.ok (sT'.objs, sT'.existing_objs, sT'.failed_objs)
      = Except.ok (sF'.objs, sF'.existing_objs, sF'.failed_objs)
    rw [c1, c2, c3]

/-- C7 (amended).  Mode equivalence holds for every input list and store
state *provided every row's primary-key values are unchanged by coercion*
(already of the declared python type and within the declared maximum
length): then the low-memory and the per-row mode return identical
`(to_insert, existing, failed)` classifications.  (With a key value
altered by coercion — e.g. an over-length string key — the modes can
disagree, see the counterexample.) -/
theorem C7_mode_equivalence_amended (st : Store) (e : Entity) (data : List Row)
    (hid : KeysCoerceId e.pkeyCols data) :
    _filter_out_duplicates st e data true = _filter_out_duplicates st e data false :=
  filter_mode_equiv_of_id st e data hid

/-- Witness for C7 (amended): a batch with an in-batch duplicate, a
store-level duplicate and a missing-key row, all key values within type
and length, classified identically by both modes. -/
theorem C7_mode_equivalence_amended_witness :
    _filter_out_duplicates ⟨[[Value.intV 2]]⟩ ⟨[⟨"id", ColType.intCol, false⟩]⟩
        [[("id", Value.intV 1)], [("id", Value.intV 1)], [("id", Value.intV 2)],
         [("v", Value.strV "x")]] true
      = _filter_out_duplicates ⟨[[Value.intV 2]]⟩ ⟨[⟨"id", ColType.intCol, false⟩]⟩
        [[("id", Value.intV 1)], [("id", Value.intV 1)], [("id", Value.intV 2)],
         [("v", Value.strV "x")]] false :=
  C7_mode_equivalence_amended ⟨[[Value.intV 2]]⟩ ⟨[⟨"id", ColType.intCol, false⟩]⟩
    [[("id", Value.intV 1)], [("id", Value.intV 1)], [("id", Value.intV 2)],
     [("v", Value.strV "x")]]
    (by decide)

/-! ### Idempotent reinsertion -/

/-- Case analysis of one low-memory loop iteration. -/
theorem processRow_true_cases {st : Store} {e : Entity} {s s' : FilterState} {row : Row}
    (h : processRow st e true s row = .ok s') :
    ((e.pkeyCols.all fun c => (Row.find row c.name).isSome) = false ∧
      s' = { s with failed_objs := s.failed_objs ++ [row] }) ∨
    (is_auto_pkey e = true ∧ s' = { s with objs := s.objs ++ [row] }) ∨
    (∃ pk, computePk e.pkeyCols row = .ok pk ∧ pk ∈ s.all_pks ∧
      s' = { s with existing_objs := s.existing_objs ++ [row] }) ∨
    (∃ pk, computePk e.pkeyCols row = .ok pk ∧ pk ∉ s.all_pks ∧
      s' = { s with all_pks := s.all_pks ++ [pk], objs := s.objs ++ [row] }) := by
  by_cases hauto : is_auto_pkey e = true
  · rw [processRow_auto hauto] at h
    injection h with h
    exact Or.inr (Or.inl ⟨hauto, h.symm⟩)
  · have hauto' : is_auto_pkey e = false := by
      revert hauto
      cases is_auto_pkey e <;> simp
    by_cases hkeys : (e.pkeyCols.all fun c => (Row.find row c.name).isSome) = true
    · cases hpk : computePk e.pkeyCols row with
      | error er => simp [processRow, hauto', hkeys, hpk] at h
      | ok pk =>
          by_cases hmem : pk ∈ s.all_pks
          · rw [processRow_dup hauto' hkeys hpk hmem] at h
            injection h with h
            exact Or.inr (Or.inr (Or.inl ⟨pk, rfl, hmem, h.symm⟩))
          · rw [processRow_fresh hauto' hkeys hpk hmem (Or.inl rfl)] at h
            injection h with h
            exact Or.inr (Or.inr (Or.inr ⟨pk, rfl, hmem, h.symm⟩))
    · have hkeys' : (e.pkeyCols.all fun c => (Row.find row c.name).isSome) = false := by
        revert hkeys
        cases e.pkeyCols.all fun c => (Row.find row c.name).isSome <;> simp
      rw [processRow_missing hauto' hkeys'] at h
      injection h with h
      exact Or.inl ⟨hkeys', h.symm⟩

/-- Bookkeeping of a successful low-memory run: the seen-set grows
monotonically, rows go to `objs` monotonically, every final seen key is an
initial one or the coerced key of an inserted row, and every processed row
with all key fields present has its coerced key in the final seen-set. -/
theorem filterLoop_true_pks {st : Store} {e : Entity} (hauto : is_auto_pkey e = false) :
    ∀ (data : List Row) (s s' : FilterState),
    filterLoop st e true data s = .ok s' →
    (∀ q, q ∈ s.all_pks → q ∈ s'.all_pks) ∧
    (∀ r, r ∈ s.objs → r ∈ s'.objs) ∧
    (∀ q, q ∈ s'.all_pks →
      q ∈ s.all_pks ∨ ∃ r, r ∈ s'.objs ∧ computePk e.pkeyCols r = .ok q) ∧
    (∀ row ∈ data, (e.pkeyCols.all fun c => (Row.find row c.name).isSome) = true →
      ∃ q, computePk e.pkeyCols row = .ok q ∧ q ∈ s'.all_pks)
  | [], s, s', h => by
      rw [filterLoop] at h
      injection h with h
      subst h
      exact ⟨fun q hq => hq, fun r hr => hr, fun q hq => Or.inl hq, by simp⟩
  | row :: rest, s, s', h => by
      rw [filterLoop] at h
      cases hp : processRow st e true s row with
      | error er => rw [hp] at h; exact absurd h (by simp)
      | ok s₁ =>
          rw [hp] at h
          obtain ⟨monoP, monoO, src, dmem⟩ := filterLoop_true_pks hauto rest s₁ s' h
          rcases processRow_true_cases hp with ⟨hk, rfl⟩ | ⟨hA, _⟩ |
            ⟨pk, hpk, hmem, rfl⟩ | ⟨pk, hpk, hmem, rfl⟩
          · refine ⟨monoP, monoO, src, ?_⟩
            intro r hr hkr
            rcases List.mem_cons.mp hr with rfl | hr
            · rw [hk] at hkr
              exact Bool.noConfusion hkr
            · exact dmem r hr hkr
          · rw [hauto] at hA
            exact Bool.noConfusion hA
          · refine ⟨monoP, monoO, src, ?_⟩
            intro r hr hkr
            rcases List.mem_cons.mp hr with rfl | hr
            · exact ⟨pk, hpk, monoP pk hmem⟩
            · exact dmem r hr hkr
          · refine ⟨?_, ?_, ?_, ?_⟩
            · intro q hq
              exact monoP q (List.mem_append.mpr (Or.inl hq))
            · intro r hr
              exact monoO r (List.mem_append.mpr (Or.inl hr))
            · intro q hq
              rcases src q hq with hq' | hq'
              · rcases List.mem_append.mp hq' with hq'' | hq''
                · exact Or.inl hq''
                · rw [List.mem_singleton] at hq''
                  subst hq''
                  exact Or.inr ⟨row,
                    monoO row (List.mem_append.mpr (Or.inr (List.mem_singleton.mpr rfl))),
                    hpk⟩
              · exact Or.inr hq'
            · intro r hr hkr
              rcases List.mem_cons.mp hr with rfl | hr
              · exact ⟨pk, hpk,
                  monoP pk (List.mem_append.mpr (Or.inr (List.mem_singleton.mpr rfl)))⟩
              · exact dmem r hr hkr

/-- Second-run lemma: when every row has its key fields and its coerced key
already in the seen-set, the whole batch is classified `existing`, in input
order, and the state is otherwise untouched. -/
theorem filterLoop_true_all_existing (st : Store) {e : Entity}
    (hauto : is_auto_pkey e = false) :
    ∀ (data : List Row) (s : FilterState),
    (∀ row ∈ data, (e.pkeyCols.all fun c => (Row.find row c.name).isSome) = true ∧
      ∃ q, computePk e.pkeyCols row = .ok q ∧ q ∈ s.all_pks) →
    filterLoop st e true data s = .ok { s with existing_objs := s.existing_objs ++ data }
  | [], s, _ => by rw [filterLoop]; simp
  | row :: rest, s, hall => by
      obtain ⟨hkeys, q, hq, hqmem⟩ := hall row (List.mem_cons_self row rest)
      rw [filterLoop, processRow_dup hauto hkeys hq hqmem]
      show filterLoop st e true rest _ = _
      rw [filterLoop_true_all_existing st hauto rest
          { s with existing_objs := s.existing_objs ++ [row] }
          (fun r hr => hall r (List.mem_cons_of_mem row hr))]
      simp

/-- With coercion-invariant keys the whole insert (filter + commit) is
mode-independent. -/
theorem insert_data_mode_equiv (st : Store) (e : Entity) (data : List Row)
    (hid : KeysCoerceId e.pkeyCols data) :
    insert_data st e data false = insert_data st e data true := by
  unfold insert_data
  rw [filter_mode_equiv_of_id st e data hid]

/-- Idempotent reinsertion in low-memory mode: if the first run succeeded
and committed, the second run inserts nothing and reports every input row
as existing. -/
theorem insert_data_idempotent_true (st : Store) (e : Entity) (data : List Row)
    (i1 e1 f1 : List Row) (st' : Store)
    (hauto : is_auto_pkey e = false)
    (hkeys : ∀ row ∈ data, (e.pkeyCols.all fun c => (Row.find row c.name).isSome) = true)
    (hrun1 : insert_data st e data true = .ok (i1, e1, f1, st')) :
    insert_data st' e data true = .ok ([], data, [], st') := by
  unfold insert_data _filter_out_duplicates at hrun1
  cases hloop : filterLoop st e true data (filterInit st e true) with
  | error er => rw [hloop] at hrun1; exact absurd hrun1 (by simp)
  | ok s1 =>
      rw [hloop] at hrun1
      simp only [hauto, Bool.false_eq_true, if_false, Except.ok.injEq,
        Prod.mk.injEq] at hrun1
      obtain ⟨hI, hE, hF, hS⟩ := hrun1
      obtain ⟨monoP, monoO, src, dmem⟩ :=
        filterLoop_true_pks hauto data (filterInit st e true) s1 hloop
      have hinit : (filterInit st e true).all_pks = st.pks := by
        simp [filterInit, hauto]
      have hall : ∀ row ∈ data,
          (e.pkeyCols.all fun c => (Row.find row c.name).isSome) = true ∧
          ∃ q, computePk e.pkeyCols row = .ok q ∧
            q ∈ (filterInit st' e true).all_pks := by
        intro row hrow
        refine ⟨hkeys row hrow, ?_⟩
        obtain ⟨q, hq, hqmem⟩ := dmem row hrow (hkeys row hrow)
        refine ⟨q, hq, ?_⟩
        have hinit' : (filterInit st' e true).all_pks = st'.pks := by
          simp [filterInit, hauto]
        rw [hinit', ← hS]
        show q ∈ st.pks ++ s1.objs.filterMap fun r => (computePk e.pkeyCols r).toOption
        rcases src q hqmem with hq' | ⟨r, hrO, hrpk⟩
        · rw [hinit] at hq'
          exact List.mem_append.mpr (Or.inl hq')
        · exact List.mem_append.mpr
            (Or.inr (List.mem_filterMap.mpr ⟨r, hrO, by rw [hrpk]; rfl⟩))
      unfold insert_data _filter_out_duplicates
      rw [filterLoop_true_all_existing st' hauto data (filterInit st' e true) hall]
      simp [filterInit, hauto]

/-- C3 counterexample.  As stated (any matching mode, any key values) the
claim fails in per-row mode on an over-length VARCHAR(3) key: the first
run succeeds and commits the truncated key "abc", but the second run's
existence query compares the raw "abcd" against the stored "abc", finds
nothing, and classifies the very same row as to-insert again — so
`inserted ≠ []` and `existing ≠ all input rows` although the entity has a
well-defined non-auto-increment key, the row carries the key field, and
the first run succeeded. -/
theorem C3_idempotent_counterexample :
    is_auto_pkey ⟨[⟨"id", ColType.strCol (some 3), false⟩]⟩ = false ∧
    insert_data ⟨[]⟩ ⟨[⟨"id", ColType.strCol (some 3), false⟩]⟩
        [[("id", Value.strV "abcd")]] false
      = .ok ([[("id", Value.strV "abcd")]], [], [], ⟨[[Value.strV "abc"]]⟩) ∧
    insert_data ⟨[[Value.strV "abc"]]⟩ ⟨[⟨"id", ColType.strCol (some 3), false⟩]⟩
        [[("id", Value.strV "abcd")]] false
      = .ok ([[("id", Value.strV "abcd")]], [], [],
             ⟨[[Value.strV "abc"], [Value.strV "abc"]]⟩) ∧
    ([[("id", Value.strV "abcd")]] : List Row) ≠ [] := by
  refine ⟨by decide, by decide, by decide, by decide⟩

/-- C3 (amended).  Idempotent reinsertion holds for every entity with a
well-defined (non-auto-increment) primary key and every input list whose
rows all carry the key fields, *provided the runs use low-memory mode or
every row's key values are unchanged by coercion*: if the first run
succeeds and commits its `to_insert` rows, a second run on the same input
against the resulting store returns `inserted == []` and
`existing == all input rows` (and leaves the store unchanged).  In per-row
mode with a key value altered by coercion (e.g. an over-length string key)
the code re-inserts the row instead — see the counterexample. -/
theorem C3_idempotent_amended (st : Store) (e : Entity) (data : List Row) (lm : Bool)
    (i1 e1 f1 : List Row) (st' : Store)
    (hauto : is_auto_pkey e = false)
    (hkeys : ∀ row ∈ data, (e.pkeyCols.all fun c => (Row.find row c.name).isSome) = true)
    (hmode : lm = true ∨ KeysCoerceId e.pkeyCols data)
    (hrun1 : insert_data st e data lm = .ok (i1, e1, f1, st')) :
    insert_data st' e data lm = .ok ([], data, [], st') := by
  cases lm with
  | true => exact insert_data_idempotent_true st e data i1 e1 f1 st' hauto hkeys hrun1
  | false =>
      have hid : KeysCoerceId e.pkeyCols data := by
        rcases hmode with h | h
        · exact Bool.noConfusion h
        · exact h
      rw [insert_data_mode_equiv st e data hid] at hrun1
      rw [insert_data_mode_equiv st' e data hid]
      exact insert_data_idempotent_true st e data i1 e1 f1 st' hauto hkeys hrun1

/-- Witness for C3 (amended): two integer-keyed rows, empty store, per-row
mode; the first run inserts both, the second reports both existing. -/
theorem C3_idempotent_amended_witness :
    insert_data ⟨[[Value.intV 1], [Value.intV 2]]⟩ ⟨[⟨"id", ColType.intCol, false⟩]⟩
        [[("id", Value.intV 1)], [("id", Value.intV 2)]] false
      = .ok ([], [[("id", Value.intV 1)], [("id", Value.intV 2)]], [],
             ⟨[[Value.intV 1], [Value.intV 2]]⟩) :=
  C3_idempotent_amended ⟨[]⟩ ⟨[⟨"id", ColType.intCol, false⟩]⟩
    [[("id", Value.intV 1)], [("id", Value.intV 2)]] false
    [[("id", Value.intV 1)], [("id", Value.intV 2)]] [] []
    ⟨[[Value.intV 1], [Value.intV 2]]⟩
    (by decide) (by decide) (Or.inr (by decide)) (by decide)

/-! ### The key-based resumable reader -/

/-- On a strictly key-ordered source, filtering by `id > cursor` with the
cursor at index `i` yields exactly the rows after index `i`. -/
theorem sorted_filter_drop : ∀ (l : List VRow),
    l.Pairwise (fun a b => a.1 < b.1) →
    ∀ (i : Nat) (r : VRow), l.get? i = some r →
    (l.filter fun x => decide (r.1 < x.1)) = l.drop (i + 1)
  | [], _, i, r, h => by simp at h
  | a :: tl, hp, 0, r, h => by
      simp only [List.get?_cons_zero, Option.some.injEq] at h
      subst h
      rw [List.filter_cons]
      have ha : decide (a.1 < a.1) = false := by simp
      rw [ha]
      simp only [Bool.false_eq_true, if_false, List.drop_succ_cons, List.drop_zero]
      rw [List.filter_eq_self.mpr]
      intro x hx
      have := (List.pairwise_cons.mp hp).1 x hx
      simpa using this
  | a :: tl, hp, i + 1, r, h => by
      simp only [List.get?_cons_succ] at h
      have hmem : r ∈ tl := List.get?_mem h
      have har : a.1 < r.1 := (List.pairwise_cons.mp hp).1 r hmem
      rw [List.filter_cons]
      have ha : decide (r.1 < a.1) = false := by
        simp [not_lt.mpr (le_of_lt har)]
      rw [ha]
      simp only [Bool.false_eq_true, if_false, List.drop_succ_cons]
      exact sorted_filter_drop tl (List.pairwise_cons.mp hp).2 i r h

/-- The cursor invariant of the reading loop: either we are at the very
start (no filter), or the filter holds the key of the last stored row. -/
def CursorOK (source : List VRow) (off : Nat) (filter_ : Option String) : Prop :=
  (off = 0 ∧ filter_ = none) ∨
  (1 ≤ off ∧ off ≤ source.length ∧
    ∃ r, source.get? (off - 1) = some r ∧ filter_ = some r.1)


/-- Under the cursor invariant, the filtered (or offset) query returns
exactly the rows not yet stored. -/
theorem queryFiltered_drop {source : List VRow} {off : Nat} {filter_ : Option String}
    (hs : source.Pairwise (fun a b => a.1 < b.1))
    (hcur : CursorOK source off filter_) :
    queryFiltered source off filter_ = source.drop off := by
  rcases hcur with ⟨rfl, rfl⟩ | ⟨h1, h2, r, hget, rfl⟩
  · rfl
  · show (source.filter fun x => decide (r.1 < x.1)) = _
    rw [sorted_filter_drop source hs (off - 1) r hget]
    congr 1
    omega

theorem query_and_bundle_some {source : List VRow} {off cs : Nat}
    {filter_ : Option String}
    (hs : source.Pairwise (fun a b => a.1 < b.1))
    (hcur : CursorOK source off filter_)
    (hlt : off < source.length) (hcs : 1 ≤ cs) :
    query_and_bundle source off (some cs) filter_
      = .ok ((source.drop off).take cs) := by
  unfold query_and_bundle
  rw [queryFiltered_drop hs hcur]
  have hne : queryLimited (source.drop off) (some cs) ≠ [] := by
    show (source.drop off).take cs ≠ []
    rw [Ne, List.take_eq_nil_iff]
    push_neg
    refine ⟨by omega, ?_⟩
    rw [Ne, List.drop_eq_nil_iff]
    omega
  rw [if_neg hne]
  rfl

theorem query_and_bundle_none {source : List VRow} {off : Nat}
    {filter_ : Option String}
    (hs : source.Pairwise (fun a b => a.1 < b.1))
    (hcur : CursorOK source off filter_)
    (hlt : off < source.length) :
    query_and_bundle source off none filter_ = .ok (source.drop off) := by
  unfold query_and_bundle
  rw [queryFiltered_drop hs hcur]
  have hne : queryLimited (source.drop off) none ≠ [] := by
    show source.drop off ≠ []
    rw [Ne, List.drop_eq_nil_iff]
    omega
  rw [if_neg hne]
  rfl

/-- One successful iteration of the reading loop, as a rewrite rule. -/
theorem readLoop_step_ok {source : List VRow} {cs count : Nat} {maxc nchunks : Int}
    {fuel off : Nat} {filter_ : Option String} {acc chunk : List VRow}
    (hlt : off < count) (hnc : ¬ nchunks ≥ maxc)
    (hq : query_and_bundle source off
        (if off + cs < count then some cs else none) filter_ = .ok chunk)
    (hfitlen : ¬ count - off < chunk.length) :
    readLoop source cs count maxc (fuel + 1) off filter_ nchunks acc
      = readLoop source cs count maxc fuel (off + cs)
          (some (chunk.getLastD ("", 0)).1)
          (if maxc > 0 then nchunks + 1 else nchunks) (acc ++ chunk) := by
  rw [readLoop, if_pos hlt, if_neg hnc, hq]
  show (if count - off < chunk.length then
          (.error "ValueError: could not broadcast input array" : Except String (List VRow))
        else readLoop source cs count maxc fuel (off + cs)
          (some (chunk.getLastD ("", 0)).1)
          (if maxc > 0 then nchunks + 1 else nchunks) (acc ++ chunk)) = _
  rw [if_neg hfitlen]

/-- Main loop lemma for `read_data` with `max_chunks = None`: resuming at
`off` rows already stored (cursor = key of row `off - 1`) fetches exactly
the remaining rows, in order, with no error. -/
theorem readLoop_drains {source : List VRow} {cs : Nat}
    (hs : source.Pairwise (fun a b => a.1 < b.1)) (hcs : 1 ≤ cs) :
    ∀ (fuel off : Nat) (filter_ : Option String) (acc : List VRow),
    source.length - off + 1 ≤ fuel →
    CursorOK source off filter_ →
    readLoop source cs source.length 0 fuel off filter_ (-1) acc
      = .ok (acc ++ source.drop off)
  | 0, off, filter_, acc, hfuel, _ => by omega
  | fuel + 1, off, filter_, acc, hfuel, hcur => by
      by_cases hlt : off < source.length
      · by_cases hfit : off + cs < source.length
        · -- full chunk of exactly cs rows, loop continues
          have hq : query_and_bundle source off
              (if off + cs < source.length then some cs else none) filter_
              = .ok ((source.drop off).take cs) := by
            rw [if_pos hfit]
            exact query_and_bundle_some hs hcur hlt hcs
          have hclen : ((source.drop off).take cs).length = cs := by
            rw [List.length_take, List.length_drop]
            omega
          rw [readLoop_step_ok hlt (by norm_num) hq (by rw [hclen]; omega)]
          rw [if_neg (by norm_num : ¬ (0 : Int) > 0)]
          have hidx : off + (cs - 1) < source.length := by omega
          have hget' : source.get? (off + (cs - 1))
              = some (source.get ⟨off + (cs - 1), hidx⟩) :=
            List.get?_eq_get hidx
          have hlast : ((source.drop off).take cs).getLastD ("", 0)
              = source.get ⟨off + (cs - 1), hidx⟩ := by
            rw [List.getLastD_eq_getLast?, List.getLast?_eq_get?, hclen]
            rw [List.get?_take (by omega : cs - 1 < cs), List.get?_drop, hget']
            rfl
          rw [hlast]
          rw [readLoop_drains hs hcs fuel (off + cs)
              (some (source.get ⟨off + (cs - 1), hidx⟩).1)
              (acc ++ (source.drop off).take cs)
              (by omega)
              (Or.inr ⟨by omega, by omega,
                source.get ⟨off + (cs - 1), hidx⟩,
                by rw [show off + cs - 1 = off + (cs - 1) by omega]; exact hget',
                rfl⟩)]
          rw [List.append_assoc]
          have hsplit : source.drop (off + cs) = (source.drop off).drop cs := by
            rw [List.drop_drop]
          rw [hsplit, List.take_append_drop]
        · -- final chunk: all remaining rows, next iteration stops
          have hq : query_and_bundle source off
              (if off + cs < source.length then some cs else none) filter_
              = .ok (source.drop off) := by
            rw [if_neg hfit]
            exact query_and_bundle_none hs hcur hlt
          rw [readLoop_step_ok hlt (by norm_num) hq
              (by rw [List.length_drop]; omega)]
          cases fuel with
          | zero => omega
          | succ fuel' =>
              rw [readLoop, if_neg (by omega : ¬ off + cs < source.length)]
      · rw [readLoop, if_neg hlt]
        have hnil : source.drop off = [] := by
          rw [List.drop_eq_nil_iff]
          omega
        rw [hnil, List.append_nil]

theorem filter_replicate_empty : ∀ m : Nat,
    ((List.replicate m "").filter fun s => decide (s ≠ "")) = []
  | 0 => rfl
  | m + 1 => by
      rw [List.replicate_succ, List.filter_cons]
      simp [filter_replicate_empty m]

/-- `sum(ids != '')` on an id array holding the first `k` source keys. -/
theorem ids_offset (source : List VRow) (k : Nat)
    (hne : ∀ r ∈ source, r.1 ≠ "") (hk : k ≤ source.length) :
    (((source.take k).map Prod.fst
        ++ List.replicate (source.length - k) "").filter
      fun s => decide (s ≠ "")).length = k := by
  rw [List.filter_append, filter_replicate_empty, List.append_nil]
  rw [List.filter_eq_self.mpr]
  · rw [List.length_map, List.length_take]
    omega
  · intro s hs
    rw [List.mem_map] at hs
    obtain ⟨r, hr, rfl⟩ := hs
    have hrs : r ∈ source := List.mem_of_mem_take hr
    simp [hne r hrs]

/-- `ids[offset-1]` on that array is the key of source row `k - 1`. -/
theorem ids_cursor (source : List VRow) (k : Nat) (hk1 : 1 ≤ k)
    (hk : k ≤ source.length) :
    ((source.take k).map Prod.fst
        ++ List.replicate (source.length - k) "").get? (k - 1)
      = some ((source.get ⟨k - 1, by omega⟩).1) := by
  rw [List.get?_append (by rw [List.length_map, List.length_take]; omega)]
  rw [List.get?_map, List.get?_take (by omega : k - 1 < k)]
  rw [List.get?_eq_get (by omega : k - 1 < source.length)]
  rfl

/-- C8.  Resumable key-based read: for a source of rows in strictly
increasing key order (distinct, non-empty keys), resuming `read_data`
after a transient failure with the first `k` rows already stored (so the
cursor is the key of row `k-1`) fetches exactly the remaining rows — no
repeats and no gaps — for any `chunksize ≥ 1`. -/
theorem C8_resumable_keyed_read (source : List VRow) (k cs : Nat)
    (hs : source.Pairwise (fun a b => a.1 < b.1))
    (hne : ∀ r ∈ source, r.1 ≠ "")
    (hcs : 1 ≤ cs) (hk : k ≤ source.length) :
    read_data source ((source.take k).map Prod.fst
        ++ List.replicate (source.length - k) "") cs none
      = .ok (source.drop k) := by
  unfold read_data
  rw [ids_offset source k hne hk]
  by_cases hk0 : k = 0
  · subst hk0
    rw [if_pos rfl]
    exact readLoop_drains hs hcs (source.length + 1) 0 none []
      (by omega) (Or.inl ⟨rfl, rfl⟩)
  · rw [if_neg hk0]
    rw [ids_cursor source k (by omega) hk]
    exact readLoop_drains hs hcs (source.length + 1) k
      (some ((source.get ⟨k - 1, by omega⟩).1)) []
      (by omega)
      (Or.inr ⟨by omega, hk, source.get ⟨k - 1, by omega⟩,
        List.get?_eq_get (by omega), rfl⟩)

/-- Witness for C8: the spec's scenario — 25 ordered rows, `chunksize=10`,
12 rows already stored when the transient failure hit; resumption reads
exactly the remaining 13 rows. -/
theorem C8_resumable_keyed_read_witness :
    read_data
        [("a01", 1), ("a02", 2), ("a03", 3), ("a04", 4), ("a05", 5),
         ("a06", 6), ("a07", 7), ("a08", 8), ("a09", 9), ("a10", 10),
         ("a11", 11), ("a12", 12), ("a13", 13), ("a14", 14), ("a15", 15),
         ("a16", 16), ("a17", 17), ("a18", 18), ("a19", 19), ("a20", 20),
         ("a21", 21), ("a22", 22), ("a23", 23), ("a24", 24), ("a25", 25)]
        ((([("a01", 1), ("a02", 2), ("a03", 3), ("a04", 4), ("a05", 5),
            ("a06", 6), ("a07", 7), ("a08", 8), ("a09", 9), ("a10", 10),
            ("a11", 11), ("a12", 12), ("a13", 13), ("a14", 14), ("a15", 15),
            ("a16", 16), ("a17", 17), ("a18", 18), ("a19", 19), ("a20", 20),
            ("a21", 21), ("a22", 22), ("a23", 23), ("a24", 24),
            ("a25", 25)] : List VRow).take 12).map Prod.fst
          ++ List.replicate
              (([("a01", 1), ("a02", 2), ("a03", 3), ("a04", 4), ("a05", 5),
                 ("a06", 6), ("a07", 7), ("a08", 8), ("a09", 9), ("a10", 10),
                 ("a11", 11), ("a12", 12), ("a13", 13), ("a14", 14), ("a15", 15),
                 ("a16", 16), ("a17", 17), ("a18", 18), ("a19", 19), ("a20", 20),
                 ("a21", 21), ("a22", 22), ("a23", 23), ("a24", 24),
                 ("a25", 25)] : List VRow).length - 12) "")
        10 none
      = .ok (([("a01", 1), ("a02", 2), ("a03", 3), ("a04", 4), ("a05", 5),
               ("a06", 6), ("a07", 7), ("a08", 8), ("a09", 9), ("a10", 10),
               ("a11", 11), ("a12", 12), ("a13", 13), ("a14", 14), ("a15", 15),
               ("a16", 16), ("a17", 17), ("a18", 18), ("a19", 19), ("a20", 20),
               ("a21", 21), ("a22", 22), ("a23", 23), ("a24", 24),
               ("a25", 25)] : List VRow).drop 12) :=
  C8_resumable_keyed_read
    [("a01", 1), ("a02", 2), ("a03", 3), ("a04", 4), ("a05", 5),
     ("a06", 6), ("a07", 7), ("a08", 8), ("a09", 9), ("a10", 10),
     ("a11", 11), ("a12", 12), ("a13", 13), ("a14", 14), ("a15", 15),
     ("a16", 16), ("a17", 17), ("a18", 18), ("a19", 19), ("a20", 20),
     ("a21", 21), ("a22", 22), ("a23", 23), ("a24", 24), ("a25", 25)]
    12 10
    (by
      simp only [List.pairwise_cons, List.mem_cons, List.not_mem_nil,
        forall_eq_or_imp, forall_eq, and_true]
      refine ⟨?_, ?_, ?_, ?_, ?_, ?_, ?_, ?_, ?_, ?_, ?_, ?_, ?_, ?_, ?_, ?_, ?_,
        ?_, ?_, ?_, ?_, ?_, ?_, ?_⟩ <;> simp
      all_goals repeat' apply And.intro
      all_goals decide)
    (by decide) (by decide) (by decide)
